import Mathlib

/-!
Verification development for the Soundfont-Testing-MIDI playback orchestrator
(`sountfontTest.py`).  The Python source is shallowly embedded below: each
Python method that the verified properties depend on becomes a Lean function
of the same name, operating on an explicit `AppState` record in place of the
mutable GTK window object.  Text is modelled as `List Char` (Lean `Char` is a
Unicode scalar value, so well-formed Python `str` values embed exactly, and
the `encode('utf-8','surrogateescape').decode('utf-8','replace')` dances in
the source are the identity on such values).
-/

/-- Python strings are embedded as lists of Unicode scalar values. -/
abbrev Str := List Char

/-- Convert a Lean string literal to the embedded representation. -/
def str (s : String) : Str := s.data

/-! ## Generic text helpers shared by several embedded functions -/

/-- Split a character list at every occurrence of the separator `c`.
The result is the list of (possibly empty) maximal runs between separators;
it is always nonempty.  This is the semantics of Python `text.split(c)`. -/
def splitOnChar (c : Char) : Str → List Str
  | [] => [[]]
  | x :: xs =>
    match splitOnChar c xs with
    | [] => [[]]
    | l :: ls => if x = c then [] :: l :: ls else (x :: l) :: ls

/-- Characters stripped by Python `str.strip()` with no argument: everything
with the Unicode whitespace property (`str.isspace`). -/
def isPySpace (c : Char) : Bool :=
  let n := c.toNat
  decide ((9 ≤ n ∧ n ≤ 13) ∨ (28 ≤ n ∧ n ≤ 31) ∨ n = 32 ∨ n = 133 ∨ n = 160 ∨
    n = 0x1680 ∨ (0x2000 ≤ n ∧ n ≤ 0x200A) ∨ n = 0x2028 ∨ n = 0x2029 ∨
    n = 0x202F ∨ n = 0x205F ∨ n = 0x3000)

/-- Python `line.strip()`: remove leading and trailing whitespace. -/
def stripWS (l : Str) : Str :=
  ((l.dropWhile isPySpace).reverse.dropWhile isPySpace).reverse

/-- Python `s.lower()`, restricted to the ASCII letters that appear in the
file extensions and search predicates handled by the program. -/
def toLowerL (l : Str) : Str := l.map Char.toLower

/-- Python substring test `needle in hay`. -/
def isSubstringL (needle hay : Str) : Bool :=
  (List.range (hay.length + 1)).any (fun i => (hay.drop i).take needle.length = needle)

/-! ## posixpath embeddings

The program runs `os.path` functions on a POSIX system; these are the
corresponding `posixpath` algorithms. -/

/-- Python `posixpath.isabs`. -/
def isabsL (p : Str) : Bool := p.take 1 = ['/']

/-- Python `posixpath.join` for two components. -/
def joinL (a b : Str) : Str :=
  if isabsL b then b
  else if a = [] ∨ a.getLast? = some '/' then a ++ b
  else a ++ '/' :: b

/-- Python `posixpath.normpath`: collapse repeated separators, `.` and `..`
components, preserving the one-or-two leading slashes convention. -/
def normpathL (p : Str) : Str :=
  if p = [] then ['.']
  else
    let slashes : Nat :=
      if p.take 1 = ['/'] then
        if p.take 2 = ['/', '/'] ∧ ¬(p.take 3 = ['/', '/', '/']) then 2 else 1
      else 0
    let comps := splitOnChar '/' p
    let newComps := comps.foldl
      (fun acc comp =>
        if comp = [] ∨ comp = ['.'] then acc
        else if comp ≠ ['.', '.'] ∨ (slashes = 0 ∧ acc = []) ∨
            acc.getLast? = some ['.', '.'] then
          acc ++ [comp]
        else if acc ≠ [] then acc.dropLast
        else acc)
      []
    let out := List.replicate slashes '/' ++ List.intercalate ['/'] newComps
    if out = [] then ['.'] else out

/-- Python `posixpath.abspath` relative to a current working directory
(`os.getcwd()` is passed explicitly). -/
def abspathL (cwd p : Str) : Str :=
  if isabsL p then normpathL p else normpathL (joinL cwd p)

/-- `posixpath.normcase` is the identity on POSIX. -/
def normcaseL (p : Str) : Str := p

/-- The path-identity normalisation used throughout the source:
`os.path.normcase(os.path.abspath(p))`. -/
def normalizeL (cwd p : Str) : Str := normcaseL (abspathL cwd p)

/-- Index of the last occurrence of `c` in `p`, if any. -/
def rfindC (c : Char) (p : Str) : Option Nat :=
  ((List.range p.length).filter (fun i => p.get? i = some c)).getLast?

/-- Python `posixpath.basename`: everything after the last slash. -/
def basenameL (p : Str) : Str := (splitOnChar '/' p).getLastD []

/-- Strip trailing slashes (used by `dirname`). -/
def rstripSlash (l : Str) : Str := (l.reverse.dropWhile (· = '/')).reverse

/-- Python `posixpath.dirname`: everything up to the last slash, with
trailing slashes removed unless the result is all slashes. -/
def dirnameL (p : Str) : Str :=
  if '/' ∈ p then
    let head := List.intercalate ['/'] (splitOnChar '/' p).dropLast ++ ['/']
    if head.all (· = '/') then head else rstripSlash head
  else []

/-- Python `os.path.splitext`: split off the extension beginning at the last
dot, provided that dot lies inside the basename and the basename does not
consist entirely of dots up to it. -/
def splitextL (p : Str) : Str × Str :=
  let sepIndex : Int := match rfindC '/' p with | none => -1 | some i => (i : Int)
  let dotIndex : Int := match rfindC '.' p with | none => -1 | some i => (i : Int)
  if dotIndex > sepIndex then
    let nameStart := (sepIndex + 1).toNat
    let allDots := ((p.drop nameStart).take (dotIndex.toNat - nameStart)).all (· = '.')
    if allDots then (p, []) else (p.take dotIndex.toNat, p.drop dotIndex.toNat)
  else (p, [])

/-! ## Favourites persistence (`save_favourites` / `load_favourites`)

The Python favourites store is a `set` of normalised absolute paths.  It is
embedded as a duplicate-free `List Str` (a deterministic refinement of the
set's unspecified iteration order); set-level claims are phrased through
`List.toFinset`. -/

/-- `save_favourites`: the file content written by the source — one member
per line, each line terminated by a newline. -/
def save_favourites (favs : List Str) : Str :=
  (favs.map (fun p => p ++ ['\n'])).flatten

/-- `load_favourites`: parse the favourites file back into the store.  Each
line is stripped, empty lines are dropped, and every entry is re-normalised
with `os.path.normcase(os.path.abspath(...))` (which needs the process
working directory for relative entries). -/
def load_favourites (cwd : Str) (content : Str) : List Str :=
  (((splitOnChar '\n' content).map stripWS).filter (fun l => l ≠ [])).map (normalizeL cwd)

/-! ## Catalog rows and the filtered playlist view -/

/-- One row of the `all_store` list store: display name (column 0), folder
name (column 1), file path (column 2). -/
structure Row where
  displayName : Str
  folderName : Str
  filePath : Str
  deriving DecidableEq

/-- `append_file_to_store`: build the row for one catalog file.  A file whose
normalised path is in the favourites store gets a `*` prefixed to its
displayed basename. -/
def append_file_to_store (favs : List Str) (cwd : Str) (file : Str) : Row :=
  let basename := basenameL file
  let foldername := basenameL (dirnameL file)
  let displayName := if normalizeL cwd file ∈ favs then '*' :: basename else basename
  { displayName := displayName, folderName := foldername, filePath := file }

/-- `file_filter_func`: the visibility predicate of the filtered model.  The
search text is lowercased; the empty text shows every row; otherwise a row is
visible iff the text occurs in the lowercased display name or folder name. -/
def file_filter_func (searchText : Str) (row : Row) : Bool :=
  let searchL := toLowerL searchText
  if searchL = [] then true
  else isSubstringL searchL (toLowerL row.displayName) ||
    isSubstringL searchL (toLowerL row.folderName)

/-! ## The engine state

`AppState` collects the window-object fields that the verified operations
read or write.  Subprocess handles are abstracted to liveness booleans, and
every spawn/termination is also recorded in an event trace so that
"no process was spawned" is directly observable. -/

/-- Process lifecycle events emitted by the embedded operations. -/
inductive Ev
  | spawnFluidsynth
  | spawnXmp
  | spawnMplayer
  | termFluidsynth
  | termXmp
  | termMplayer
  deriving DecidableEq

/-- The mutable window state relevant to playback orchestration. -/
structure AppState where
  fluidsynthProcess : Bool
  xmpProcess : Bool
  mplayerProcess : Bool
  radio : Bool
  fluidsynthStoppedIntentionally : Bool
  xmpStoppedIntentionally : Bool
  statusLabel : Str
  favourites : List Str
  favouritesFile : Str
  allStore : List Row
  cursor : Option Nat
  searchText : Str
  shuffleMode : Bool
  selectedSf2 : Option Str
  streams : List Str
  currentStreamIndex : Nat
  cwd : Str
  deriving DecidableEq

/-- The filtered model `all_filter`: the rows of `all_store` visible under
the current search text. -/
def filteredView (s : AppState) : List Row :=
  s.allStore.filter (file_filter_func s.searchText)

/-- `get_selected_file`: the file path (column 2) of the selected row of the
filtered model, if a row is selected. -/
def get_selected_file (s : AppState) : Option Str :=
  match s.cursor with
  | none => none
  | some i => ((filteredView s).get? i).map (fun r => r.filePath)

/-- `find_row_iter_by_file`: index of the first `all_store` row whose file
path (column 2) matches, scanning from the first row. -/
def find_row_iter_by_file (store : List Row) (fp : Str) : Option Nat :=
  match store with
  | [] => none
  | row :: rest =>
    if row.filePath = fp then some 0
    else (find_row_iter_by_file rest fp).map (· + 1)

/-- Python `display_name.lstrip("*")`: drop every leading `*`. -/
def lstripStar (l : Str) : Str := l.dropWhile (· = '*')

/-- `on_toggle_favourite`: if a file is selected and its row is found, remove
it from the favourites (stripping all leading `*` from the display name) or
add it (prefixing one `*`), then immediately rewrite the favourites file. -/
def on_toggle_favourite (s : AppState) : AppState :=
  match get_selected_file s with
  | none => s
  | some filePath =>
    match find_row_iter_by_file s.allStore filePath with
    | none => s
    | some idx =>
      match s.allStore.get? idx with
      | none => s
      | some row =>
        let displayName := row.displayName
        let s' :=
          if filePath ∈ s.favourites then
            { s with favourites := s.favourites.erase filePath,
                     allStore := s.allStore.set idx
                       { row with displayName := lstripStar displayName },
                     statusLabel := displayName ++ str " removed from favourites." }
          else
            { s with favourites := s.favourites ++ [filePath],
                     allStore := s.allStore.set idx
                       { row with displayName := '*' :: displayName },
                     statusLabel := displayName ++ str " added to favourites." }
        { s' with favouritesFile := save_favourites s'.favourites }

/-! ## Backend stop/start operations -/

/-- `stop_fluidsynth`: if the process is live, set the intentional-stop flag,
terminate it (graceful wait, then kill), clear the handle; the progress timer
is always cancelled. -/
def stop_fluidsynth (s : AppState) : AppState × List Ev :=
  if s.fluidsynthProcess then
    ({ s with fluidsynthStoppedIntentionally := true,
              fluidsynthProcess := false,
              statusLabel := str "Playback Stopped" }, [Ev.termFluidsynth])
  else (s, [])

/-- `stop_xmp`: same pattern as `stop_fluidsynth` for the module player. -/
def stop_xmp (s : AppState) : AppState × List Ev :=
  if s.xmpProcess then
    ({ s with xmpStoppedIntentionally := true,
              xmpProcess := false,
              statusLabel := str "Playback Stopped" }, [Ev.termXmp])
  else (s, [])

/-- `stop_stream`: clear the radio flag unconditionally, and terminate the
mplayer process if it is live. -/
def stop_stream (s : AppState) : AppState × List Ev :=
  let s := { s with radio := false }
  if s.mplayerProcess then
    ({ s with mplayerProcess := false }, [Ev.termMplayer])
  else (s, [])

/-- `start_stream`: stop any existing stream, then (the handle being clear)
set the radio flag and spawn mplayer on the given URL. -/
def start_stream (s : AppState) (url : Str) : AppState × List Ev :=
  let (s, e1) := stop_stream s
  if s.mplayerProcess = false then
    ({ s with radio := true,
              mplayerProcess := true,
              statusLabel := str "Connecting to " ++ url ++ str "..." },
     e1 ++ [Ev.spawnMplayer])
  else (s, e1)

/-- `on_play`: stop every backend, then start the renderer selected by the
extension of the selected file — fluidsynth (requiring a selected soundfont)
for `.mid`/`.midi`, xmp otherwise.  With no selected file, or with a MIDI
file and no soundfont, only a status message is produced. -/
def on_play (s : AppState) : AppState × List Ev :=
  let (s, e1) := stop_fluidsynth s
  let (s, e2) := stop_xmp s
  let (s, e3) := stop_stream s
  match get_selected_file s with
  | some filePath =>
    let extension := toLowerL (splitextL filePath).2
    let (s, e4) :=
      if extension = str ".mid" ∨ extension = str ".midi" then
        match s.selectedSf2 with
        | some sf2 =>
          ({ s with fluidsynthStoppedIntentionally := false,
                    fluidsynthProcess := true,
                    statusLabel := str "Playing: " ++ basenameL filePath ++
                      str " + " ++ basenameL sf2 },
           [Ev.spawnFluidsynth])
        | none => ({ s with statusLabel := str "No SoundFont selected" }, [])
      else
        ({ s with xmpStoppedIntentionally := false,
                  xmpProcess := true,
                  statusLabel := str "Playing: " ++ basenameL filePath },
         [Ev.spawnXmp])
    (s, e1 ++ e2 ++ e3 ++ e4)
  | none => ({ s with statusLabel := str "No file selected" }, e1 ++ e2 ++ e3)

/-- Cursor target computed by `on_next` (the shuffle branch's
`random.choice` is modelled by an arbitrary index supplied as `r`). -/
def nextPath (s : AppState) (r : Nat) : Option Nat :=
  let view := filteredView s
  if s.shuffleMode then
    if view.length > 0 then some (r % view.length) else none
  else
    match s.cursor with
    | some i => if i + 1 < view.length then some (i + 1) else none
    | none => if view.length > 0 then some 0 else none

/-- Cursor target computed by `on_previous`. -/
def previousPath (s : AppState) (r : Nat) : Option Nat :=
  let view := filteredView s
  if s.shuffleMode then
    if view.length > 0 then some (r % view.length) else none
  else
    match s.cursor with
    | some i => if i > 0 then some (i - 1) else some (view.length - 1)
    | none => if view.length > 0 then some (view.length - 1) else none

/-- `on_next`: stop stream and renderers, move the cursor to the next visible
row (or clear the selection when there is none), then play. -/
def on_next (s : AppState) (r : Nat) : AppState × List Ev :=
  let (s, e1) := stop_stream s
  let (s, e2) := stop_fluidsynth s
  let (s, e3) := stop_xmp s
  let s := { s with cursor := nextPath s r }
  let (s, e4) := on_play s
  (s, e1 ++ e2 ++ e3 ++ e4)

/-- `on_previous`: stop stream and renderers, move the cursor to the previous
visible row (wrapping to the last row from the top), then play. -/
def on_previous (s : AppState) (r : Nat) : AppState × List Ev :=
  let (s, e1) := stop_stream s
  let (s, e2) := stop_fluidsynth s
  let (s, e3) := stop_xmp s
  let s := { s with cursor := previousPath s r }
  let (s, e4) := on_play s
  (s, e1 ++ e2 ++ e3 ++ e4)

/-- `on_next_auto`: the auto-advance path — like `on_next` but without
stopping a stream first (`on_play` stops it anyway). -/
def on_next_auto (s : AppState) (r : Nat) : AppState × List Ev :=
  let (s, e1) := stop_fluidsynth s
  let (s, e2) := stop_xmp s
  let s := { s with cursor := nextPath s r }
  let (s, e3) := on_play s
  (s, e1 ++ e2 ++ e3)

/-- `on_pause`: stop everything and report. -/
def on_pause (s : AppState) : AppState × List Ev :=
  let (s, e1) := stop_fluidsynth s
  let (s, e2) := stop_xmp s
  let (s, e3) := stop_stream s
  ({ s with statusLabel := str "Playback Stopped" }, e1 ++ e2 ++ e3)

/-- `on_radio`: with no radio active, stop both renderers and start streaming
the current URL; with radio active, stop the stream and start the next one. -/
def on_radio (s : AppState) : AppState × List Ev :=
  if s.radio = false then
    let (s, e1) := stop_xmp s
    let (s, e2) := stop_fluidsynth s
    let (s, e3) := start_stream s (s.streams.getD s.currentStreamIndex [])
    (s, e1 ++ e2 ++ e3)
  else
    let (s, e1) := stop_stream s
    let s := { s with currentStreamIndex := (s.currentStreamIndex + 1) % s.streams.length }
    let (s, e2) := start_stream s (s.streams.getD s.currentStreamIndex [])
    (s, e1 ++ e2)

/-- The user-facing operations of the orchestration engine. -/
inductive Op
  | play
  | pause
  | next (r : Nat)
  | previous (r : Nat)
  | nextAuto (r : Nat)
  | radio
  | toggleFavourite
  deriving DecidableEq

/-- One engine transition. -/
def step (op : Op) (s : AppState) : AppState × List Ev :=
  match op with
  | Op.play => on_play s
  | Op.pause => on_pause s
  | Op.next r => on_next s r
  | Op.previous r => on_previous s r
  | Op.nextAuto r => on_next_auto s r
  | Op.radio => on_radio s
  | Op.toggleFavourite => (on_toggle_favourite s, [])

/-- Number of live backend processes. -/
def liveCount (s : AppState) : Nat :=
  (if s.fluidsynthProcess then 1 else 0) +
  (if s.xmpProcess then 1 else 0) +
  (if s.mplayerProcess then 1 else 0)

/-- The mutual-exclusion invariant: at most one backend process is live, and
while the radio flag is set no renderer process is live. -/
def MutexInv (s : AppState) : Prop :=
  liveCount s ≤ 1 ∧ (s.radio = true → s.fluidsynthProcess = false ∧ s.xmpProcess = false)

instance (s : AppState) : Decidable (MutexInv s) := by
  unfold MutexInv; infer_instance

/-! ## Renderer exit monitors -/

/-- How a monitor reacts to its process exiting. -/
inductive MonitorOutcome
  | errorSurfaced
  | autoAdvance
  | silent
  deriving DecidableEq

/-- `monitor_fluidsynth_output`, reduced to its exit-classification step:
given the intentional-stop flag, the exit code and the captured diagnostic
output, produce the reaction and the new value of the flag. -/
def monitor_fluidsynth_output (stoppedIntentionally : Bool) (exitCode : Int)
    (stderrOutput : Str) : MonitorOutcome × Bool :=
  if exitCode ≠ 0 then
    if stoppedIntentionally = true ∨ exitCode = -15 then
      (MonitorOutcome.silent, false)
    else if isSubstringL (str "error") (toLowerL stderrOutput) then
      (MonitorOutcome.errorSurfaced, stoppedIntentionally)
    else
      (MonitorOutcome.autoAdvance, stoppedIntentionally)
  else
    (MonitorOutcome.autoAdvance, stoppedIntentionally)

/-- `monitor_xmp_output`, reduced to its exit-classification step (no
diagnostic output is captured and there is no special case for `-15`). -/
def monitor_xmp_output (stoppedIntentionally : Bool) (exitCode : Int) :
    MonitorOutcome × Bool :=
  if exitCode ≠ 0 then
    if stoppedIntentionally = true then (MonitorOutcome.silent, false)
    else (MonitorOutcome.errorSurfaced, stoppedIntentionally)
  else (MonitorOutcome.autoAdvance, stoppedIntentionally)

/-! ## ICY radio metadata reader (`fetch_current_track`)

Bytes are modelled as `Char` (exact for the single-byte text the
`decode('utf-8', errors='ignore')` step maps to itself). -/

/-- Python `metadata.rstrip(b'\x00')`: drop trailing NUL padding. -/
def rstripNul (l : Str) : Str := (l.reverse.dropWhile (· = '\x00')).reverse

/-- Python `part.split("=", 1)[1]`: everything after the first `=`. -/
def afterFirstEq (part : Str) : Str :=
  match part.dropWhile (· ≠ '=') with
  | [] => part
  | _ :: rest => rest

/-- Python `title.strip("'")`: drop every leading and trailing quote. -/
def stripQuotes (l : Str) : Str :=
  ((l.dropWhile (· = '\'')).reverse.dropWhile (· = '\'')).reverse

/-- The characters of `StreamTitle='`, the key prefix the reader looks for. -/
def streamTitleKey : Str :=
  ['S', 't', 'r', 'e', 'a', 'm', 'T', 'i', 't', 'l', 'e', '=', '\'']

/-- Parse one metadata frame: strip the NUL padding, split on `;`, and for
every part starting with `StreamTitle='` extract the quoted value. -/
def parseStreamTitles (metadata : Str) : List Str :=
  (splitOnChar ';' (rstripNul metadata)).filterMap (fun part =>
    if streamTitleKey.isPrefixOf part then some (stripQuotes (afterFirstEq part))
    else none)

/-- Publish the parsed titles in order: a nonempty title replaces the current
one, an empty title keeps it; each parsed title yields one title-updated
event carrying the (possibly kept) current title.  Returns the events and
the final title. -/
def publishTitles (cur : Str) : List Str → List Str × Str
  | [] => ([], cur)
  | t :: ts =>
    let newTitle := if t ≠ [] then t else cur
    let (evs, fin) := publishTitles newTitle ts
    (newTitle :: evs, fin)

/-- The body of the `fetch_current_track` read loop: discard `metaint`
payload bytes, read one length byte `b`, and when `16 * b > 0` parse that
many metadata bytes; stop when the stream runs out of payload or length
bytes.  Every continuing iteration consumes at least the one length byte, so
the loop performs at most as many iterations as the stream has bytes; the
`fuel` argument makes that bound explicit and structural. -/
def fetchLoop (metaint : Nat) : Nat → Str → Str → List Str
  | 0, _, _ => []
  | fuel + 1, curTitle, s =>
    if metaint = 0 then []
    else if s.take metaint = [] then []
    else
      match s.drop metaint with
      | [] => []
      | b :: rest =>
        let metaLength := b.toNat * 16
        if metaLength > 0 then
          let (evs, fin) := publishTitles curTitle (parseStreamTitles (rest.take metaLength))
          evs ++ fetchLoop metaint fuel fin (rest.drop metaLength)
        else
          fetchLoop metaint fuel curTitle rest

/-- `fetch_current_track`, as the sequence of title-updated events produced
from a byte stream while the radio stays active. -/
def fetch_current_track (metaint : Nat) (curTitle : Str) (s : Str) : List Str :=
  fetchLoop metaint s.length curTitle s

/-! ## Projection lemmas for the stop/start operations -/

@[simp] lemma stop_fluidsynth_fluid (s : AppState) :
    ((stop_fluidsynth s).1).fluidsynthProcess = false := by
  unfold stop_fluidsynth; split <;> simp_all

@[simp] lemma stop_fluidsynth_xmp (s : AppState) :
    ((stop_fluidsynth s).1).xmpProcess = s.xmpProcess := by
  unfold stop_fluidsynth; split <;> simp_all

@[simp] lemma stop_fluidsynth_mplayer (s : AppState) :
    ((stop_fluidsynth s).1).mplayerProcess = s.mplayerProcess := by
  unfold stop_fluidsynth; split <;> simp_all

@[simp] lemma stop_fluidsynth_radio (s : AppState) :
    ((stop_fluidsynth s).1).radio = s.radio := by
  unfold stop_fluidsynth; split <;> simp_all

@[simp] lemma stop_fluidsynth_allStore (s : AppState) :
    ((stop_fluidsynth s).1).allStore = s.allStore := by
  unfold stop_fluidsynth; split <;> simp_all

@[simp] lemma stop_fluidsynth_searchText (s : AppState) :
    ((stop_fluidsynth s).1).searchText = s.searchText := by
  unfold stop_fluidsynth; split <;> simp_all

@[simp] lemma stop_fluidsynth_cursor (s : AppState) :
    ((stop_fluidsynth s).1).cursor = s.cursor := by
  unfold stop_fluidsynth; split <;> simp_all

@[simp] lemma stop_fluidsynth_shuffleMode (s : AppState) :
    ((stop_fluidsynth s).1).shuffleMode = s.shuffleMode := by
  unfold stop_fluidsynth; split <;> simp_all

@[simp] lemma stop_fluidsynth_selectedSf2 (s : AppState) :
    ((stop_fluidsynth s).1).selectedSf2 = s.selectedSf2 := by
  unfold stop_fluidsynth; split <;> simp_all

@[simp] lemma stop_xmp_fluid (s : AppState) :
    ((stop_xmp s).1).fluidsynthProcess = s.fluidsynthProcess := by
  unfold stop_xmp; split <;> simp_all

@[simp] lemma stop_xmp_xmp (s : AppState) :
    ((stop_xmp s).1).xmpProcess = false := by
  unfold stop_xmp; split <;> simp_all

@[simp] lemma stop_xmp_mplayer (s : AppState) :
    ((stop_xmp s).1).mplayerProcess = s.mplayerProcess := by
  unfold stop_xmp; split <;> simp_all

@[simp] lemma stop_xmp_radio (s : AppState) :
    ((stop_xmp s).1).radio = s.radio := by
  unfold stop_xmp; split <;> simp_all

@[simp] lemma stop_xmp_allStore (s : AppState) :
    ((stop_xmp s).1).allStore = s.allStore := by
  unfold stop_xmp; split <;> simp_all

@[simp] lemma stop_xmp_searchText (s : AppState) :
    ((stop_xmp s).1).searchText = s.searchText := by
  unfold stop_xmp; split <;> simp_all

@[simp] lemma stop_xmp_cursor (s : AppState) :
    ((stop_xmp s).1).cursor = s.cursor := by
  unfold stop_xmp; split <;> simp_all

@[simp] lemma stop_xmp_shuffleMode (s : AppState) :
    ((stop_xmp s).1).shuffleMode = s.shuffleMode := by
  unfold stop_xmp; split <;> simp_all

@[simp] lemma stop_xmp_selectedSf2 (s : AppState) :
    ((stop_xmp s).1).selectedSf2 = s.selectedSf2 := by
  unfold stop_xmp; split <;> simp_all

@[simp] lemma stop_stream_fluid (s : AppState) :
    ((stop_stream s).1).fluidsynthProcess = s.fluidsynthProcess := by
  unfold stop_stream; dsimp only; split <;> simp_all

@[simp] lemma stop_stream_xmp (s : AppState) :
    ((stop_stream s).1).xmpProcess = s.xmpProcess := by
  unfold stop_stream; dsimp only; split <;> simp_all

@[simp] lemma stop_stream_mplayer (s : AppState) :
    ((stop_stream s).1).mplayerProcess = false := by
  unfold stop_stream; dsimp only; split <;> simp_all

@[simp] lemma stop_stream_radio (s : AppState) :
    ((stop_stream s).1).radio = false := by
  unfold stop_stream; dsimp only; split <;> simp_all

@[simp] lemma stop_stream_allStore (s : AppState) :
    ((stop_stream s).1).allStore = s.allStore := by
  unfold stop_stream; dsimp only; split <;> simp_all

@[simp] lemma stop_stream_searchText (s : AppState) :
    ((stop_stream s).1).searchText = s.searchText := by
  unfold stop_stream; dsimp only; split <;> simp_all

@[simp] lemma stop_stream_cursor (s : AppState) :
    ((stop_stream s).1).cursor = s.cursor := by
  unfold stop_stream; dsimp only; split <;> simp_all

@[simp] lemma stop_stream_shuffleMode (s : AppState) :
    ((stop_stream s).1).shuffleMode = s.shuffleMode := by
  unfold stop_stream; dsimp only; split <;> simp_all

@[simp] lemma stop_stream_selectedSf2 (s : AppState) :
    ((stop_stream s).1).selectedSf2 = s.selectedSf2 := by
  unfold stop_stream; dsimp only; split <;> simp_all

@[simp] lemma filteredView_stop_fluidsynth (s : AppState) :
    filteredView (stop_fluidsynth s).1 = filteredView s := by
  unfold filteredView; rw [stop_fluidsynth_allStore, stop_fluidsynth_searchText]

@[simp] lemma filteredView_stop_xmp (s : AppState) :
    filteredView (stop_xmp s).1 = filteredView s := by
  unfold filteredView; rw [stop_xmp_allStore, stop_xmp_searchText]

@[simp] lemma filteredView_stop_stream (s : AppState) :
    filteredView (stop_stream s).1 = filteredView s := by
  unfold filteredView; rw [stop_stream_allStore, stop_stream_searchText]

/-! ## C3 / C4: exit classification of the renderer monitors -/

/-- C3 counterexample: a fluidsynth process that was told to stop (the
intentional-stop flag is set) but reports exit code 0 is NOT classified as an
intentional stop — the monitor auto-advances and leaves the flag set, so the
flag is not consumed by that exit event, contrary to the claim that the
classification is intentional "regardless of the process's exit code". -/
theorem monitor_flag_not_consumed_on_zero_exit :
    monitor_fluidsynth_output true 0 [] = (MonitorOutcome.autoAdvance, true) ∧
    (MonitorOutcome.autoAdvance, true) ≠ ((MonitorOutcome.silent, false) : MonitorOutcome × Bool) := by
  decide

/-- C3 (amended): after an orchestrator-initiated stop (flag set), any
non-zero exit code is classified silently with no error surfaced and the flag
consumed; a zero exit code is instead treated as natural completion
(auto-advance) with the flag left set; in no case with the flag set is an
error surfaced.  The xmp monitor behaves identically. -/
theorem monitor_intentional_stop_classification (exitCode : Int) (stderrOutput : Str)
    (h : exitCode ≠ 0) :
    monitor_fluidsynth_output true exitCode stderrOutput = (MonitorOutcome.silent, false) ∧
    monitor_xmp_output true exitCode = (MonitorOutcome.silent, false) ∧
    monitor_fluidsynth_output true 0 stderrOutput = (MonitorOutcome.autoAdvance, true) ∧
    monitor_xmp_output true 0 = (MonitorOutcome.autoAdvance, true) ∧
    (monitor_fluidsynth_output true exitCode stderrOutput).1 ≠ MonitorOutcome.errorSurfaced ∧
    (monitor_xmp_output true exitCode).1 ≠ MonitorOutcome.errorSurfaced := by
  unfold monitor_fluidsynth_output monitor_xmp_output
  simp [h]

/-- Witness for `monitor_intentional_stop_classification` at the SIGTERM
exit code `-15` produced by `terminate()`. -/
theorem monitor_intentional_stop_classification_witness :
    monitor_fluidsynth_output true (-15) (str "some output") = (MonitorOutcome.silent, false) :=
  (monitor_intentional_stop_classification (-15) (str "some output") (by decide)).1

/-- C4 counterexample: a fluidsynth process that exits with code `-15`
WITHOUT an intentional stop, and whose diagnostic output contains the
`error` marker, is classified silently (neither a surfaced failure nor an
auto-advance), contrary to the claim that any non-zero exit with an error
marker surfaces a failure. -/
theorem monitor_sigterm_exit_never_fails :
    monitor_fluidsynth_output false (-15) (str "error: failed to load soundfont") =
      (MonitorOutcome.silent, false) ∧
    MonitorOutcome.silent ≠ MonitorOutcome.errorSurfaced ∧
    MonitorOutcome.silent ≠ MonitorOutcome.autoAdvance := by
  decide

/-- C4 (amended): for a fluidsynth exit without an intentional stop: exit
code 0 auto-advances; exit code -15 is treated like an intentional stop
(silent, no failure surfaced, no auto-advance); any other non-zero exit
surfaces a failure exactly when the diagnostic output contains the substring
`error` case-insensitively, and auto-advances otherwise.  (The xmp monitor
instead surfaces a failure on every non-intentional non-zero exit.) -/
theorem monitor_unintentional_exit_classification (exitCode : Int) (stderrOutput : Str) :
    monitor_fluidsynth_output false 0 stderrOutput = (MonitorOutcome.autoAdvance, false) ∧
    monitor_fluidsynth_output false (-15) stderrOutput = (MonitorOutcome.silent, false) ∧
    (exitCode ≠ 0 → exitCode ≠ -15 →
      (isSubstringL (str "error") (toLowerL stderrOutput) = true →
        monitor_fluidsynth_output false exitCode stderrOutput =
          (MonitorOutcome.errorSurfaced, false)) ∧
      (isSubstringL (str "error") (toLowerL stderrOutput) = false →
        monitor_fluidsynth_output false exitCode stderrOutput =
          (MonitorOutcome.autoAdvance, false))) ∧
    (exitCode ≠ 0 →
      monitor_xmp_output false exitCode = (MonitorOutcome.errorSurfaced, false)) := by
  refine ⟨?_, ?_, ?_, ?_⟩
  · unfold monitor_fluidsynth_output; simp
  · unfold monitor_fluidsynth_output; simp
  · intro h1 h2
    constructor
    · intro hmark
      unfold monitor_fluidsynth_output
      simp [h1, h2, hmark]
    · intro hmark
      unfold monitor_fluidsynth_output
      simp [h1, h2, hmark]
  · intro h1
    unfold monitor_xmp_output
    simp [h1]

/-- Witness for `monitor_unintentional_exit_classification`: exit code 1
with an error marker surfaces a failure. -/
theorem monitor_unintentional_exit_classification_witness :
    monitor_fluidsynth_output false 1 (str "FluidSynth Error: bad file") =
      (MonitorOutcome.errorSurfaced, false) :=
  ((monitor_unintentional_exit_classification 1 (str "FluidSynth Error: bad file")).2.2.1
    (by decide) (by decide)).1 (by decide)

/-! ## C1: sequential next/previous navigation -/

lemma on_play_cursor (s : AppState) : (on_play s).1.cursor = s.cursor := by
  unfold on_play
  rcases h : get_selected_file (stop_stream (stop_xmp (stop_fluidsynth s).1).1).1 with _ | fp
  · simp [h]
  · simp only [h]
    split
    · rcases hsf : (stop_stream (stop_xmp (stop_fluidsynth s).1).1).1.selectedSf2 with _ | sf2 <;>
        simp [hsf]
    · simp

lemma on_play_radio (s : AppState) : (on_play s).1.radio = false := by
  unfold on_play
  rcases h : get_selected_file (stop_stream (stop_xmp (stop_fluidsynth s).1).1).1 with _ | fp
  · simp [h]
  · simp only [h]
    split
    · rcases hsf : (stop_stream (stop_xmp (stop_fluidsynth s).1).1).1.selectedSf2 with _ | sf2 <;>
        simp [hsf]
    · simp

lemma on_play_mplayer (s : AppState) : (on_play s).1.mplayerProcess = false := by
  unfold on_play
  rcases h : get_selected_file (stop_stream (stop_xmp (stop_fluidsynth s).1).1).1 with _ | fp
  · simp [h]
  · simp only [h]
    split
    · rcases hsf : (stop_stream (stop_xmp (stop_fluidsynth s).1).1).1.selectedSf2 with _ | sf2 <;>
        simp [hsf]
    · simp

lemma on_play_live (s : AppState) : liveCount (on_play s).1 ≤ 1 := by
  unfold on_play liveCount
  rcases h : get_selected_file (stop_stream (stop_xmp (stop_fluidsynth s).1).1).1 with _ | fp
  · simp [h]
  · simp only [h]
    split
    · rcases hsf : (stop_stream (stop_xmp (stop_fluidsynth s).1).1).1.selectedSf2 with _ | sf2 <;>
        simp [hsf]
    · simp

lemma on_play_no_file (s : AppState) (h : get_selected_file s = none) :
    (on_play s).1.statusLabel = str "No file selected" := by
  have h3 : get_selected_file (stop_stream (stop_xmp (stop_fluidsynth s).1).1).1 = none := by
    unfold get_selected_file
    rw [stop_stream_cursor, stop_xmp_cursor, stop_fluidsynth_cursor,
      filteredView_stop_stream, filteredView_stop_xmp, filteredView_stop_fluidsynth]
    unfold get_selected_file at h
    exact h
  unfold on_play
  simp [h3]

/-- A two-track sequential playlist view with the cursor on the first track:
display names `a.mid`, `b.mod`, empty search text, a soundfont selected. -/
def twoTrackState : AppState :=
  { fluidsynthProcess := false, xmpProcess := false, mplayerProcess := false,
    radio := false, fluidsynthStoppedIntentionally := false, xmpStoppedIntentionally := false,
    statusLabel := [], favourites := [], favouritesFile := [],
    allStore :=
      [{ displayName := str "a.mid", folderName := str "music", filePath := str "/music/a.mid" },
       { displayName := str "b.mod", folderName := str "music", filePath := str "/music/b.mod" }],
    cursor := some 0, searchText := [],
    shuffleMode := false, selectedSf2 := some (str "/sf/gm.sf2"),
    streams := [], currentStreamIndex := 0, cwd := str "/" }

/-- C1 counterexample: on the view `[a.mid, b.mod]` in sequential mode with
the cursor on `a.mid`, the first `next()` selects `b.mod`, but the second
`next()` does NOT wrap to `a.mid`: it clears the selection entirely and
reports "No file selected", so the view is left with no selection. -/
theorem next_unselects_at_end_of_view :
    (on_next twoTrackState 0).1.cursor = some 1 ∧
    (on_next (on_next twoTrackState 0).1 0).1.cursor = none ∧
    (on_next (on_next twoTrackState 0).1 0).1.statusLabel = str "No file selected" := by
  decide

/-- C1 (amended): in sequential mode, `next()` from cursor position `i`
selects position `i + 1` when one exists; when the cursor is on the last
element it does not wrap to index 0 but clears the selection and reports
"No file selected". -/
theorem on_next_sequential_semantics (s : AppState) (i r : Nat)
    (hmode : s.shuffleMode = false) (hcur : s.cursor = some i) :
    (i + 1 < (filteredView s).length → (on_next s r).1.cursor = some (i + 1)) ∧
    ((filteredView s).length ≤ i + 1 →
      (on_next s r).1.cursor = none ∧
      (on_next s r).1.statusLabel = str "No file selected") := by
  have hnp : nextPath (stop_xmp (stop_fluidsynth (stop_stream s).1).1).1 r
      = if i + 1 < (filteredView s).length then some (i + 1) else none := by
    unfold nextPath
    simp [hmode, hcur]
  constructor
  · intro hlt
    unfold on_next
    dsimp only
    rw [hnp, if_pos hlt, on_play_cursor]
  · intro hge
    have hif : (if i + 1 < (filteredView s).length then some (i + 1) else none)
        = (none : Option Nat) := by
      rw [if_neg (by omega)]
    constructor
    · unfold on_next
      dsimp only
      rw [hnp, hif, on_play_cursor]
    · unfold on_next
      dsimp only
      rw [hnp, hif]
      apply on_play_no_file
      unfold get_selected_file
      simp

/-- Witness for `on_next_sequential_semantics`: from the first of two tracks,
`next()` selects the second. -/
theorem on_next_sequential_semantics_witness :
    (on_next twoTrackState 0).1.cursor = some 1 :=
  (on_next_sequential_semantics twoTrackState 0 0 (by decide) (by decide)).1 (by decide)

/-! ## C2: mutual exclusion of playback backends -/

lemma start_stream_fluid (s : AppState) (url : Str) :
    ((start_stream s url).1).fluidsynthProcess = s.fluidsynthProcess := by
  unfold start_stream
  dsimp only
  simp

lemma start_stream_xmp (s : AppState) (url : Str) :
    ((start_stream s url).1).xmpProcess = s.xmpProcess := by
  unfold start_stream
  dsimp only
  simp

lemma start_stream_mplayer (s : AppState) (url : Str) :
    ((start_stream s url).1).mplayerProcess = true := by
  unfold start_stream
  dsimp only
  simp

lemma start_stream_radio (s : AppState) (url : Str) :
    ((start_stream s url).1).radio = true := by
  unfold start_stream
  dsimp only
  simp

lemma on_toggle_favourite_backends (s : AppState) :
    (on_toggle_favourite s).fluidsynthProcess = s.fluidsynthProcess ∧
    (on_toggle_favourite s).xmpProcess = s.xmpProcess ∧
    (on_toggle_favourite s).mplayerProcess = s.mplayerProcess ∧
    (on_toggle_favourite s).radio = s.radio := by
  unfold on_toggle_favourite
  repeat' split
  all_goals simp

/-- C2: every engine operation that starts playback or a stream first stops
every other live backend, so the mutual-exclusion invariant — at most one of
the fluidsynth process, the xmp process and the radio session (mplayer) is
live, and no renderer process is live while the radio flag is set — is
preserved by every operation. -/
theorem mutex_invariant_preserved (op : Op) (s : AppState) (h : MutexInv s) :
    MutexInv (step op s).1 := by
  cases op with
  | play =>
    unfold step
    refine ⟨on_play_live s, ?_⟩
    rw [on_play_radio]
    intro hr
    exact absurd hr (by simp)
  | pause =>
    unfold step
    constructor
    · unfold on_pause liveCount
      dsimp only
      simp
    · unfold on_pause
      dsimp only
      simp
  | next r =>
    unfold step on_next
    dsimp only
    refine ⟨on_play_live _, ?_⟩
    rw [on_play_radio]
    intro hr
    exact absurd hr (by simp)
  | previous r =>
    unfold step on_previous
    dsimp only
    refine ⟨on_play_live _, ?_⟩
    rw [on_play_radio]
    intro hr
    exact absurd hr (by simp)
  | nextAuto r =>
    unfold step on_next_auto
    dsimp only
    refine ⟨on_play_live _, ?_⟩
    rw [on_play_radio]
    intro hr
    exact absurd hr (by simp)
  | radio =>
    unfold step on_radio
    dsimp only
    split
    · constructor
      · unfold liveCount
        rw [start_stream_fluid, start_stream_xmp, start_stream_mplayer]
        simp
      · intro _
        rw [start_stream_fluid, start_stream_xmp]
        simp
    · rename_i hr
      have hrs : s.radio = true := by
        revert hr
        cases s.radio <;> simp
      obtain ⟨hf, hx⟩ := h.2 hrs
      constructor
      · unfold liveCount
        rw [start_stream_fluid, start_stream_xmp, start_stream_mplayer]
        simp [hf, hx]
      · intro _
        rw [start_stream_fluid, start_stream_xmp]
        simp [hf, hx]
  | toggleFavourite =>
    obtain ⟨hf, hx, hm, hr⟩ := on_toggle_favourite_backends s
    constructor
    · unfold step
      unfold liveCount
      rw [hf, hx, hm]
      exact h.1
    · unfold step
      rw [hr, hf, hx]
      intro hrr
      obtain ⟨a, b⟩ := h.2 hrr
      exact ⟨a, b⟩


/-- Witness for `mutex_invariant_preserved`: starting playback on an idle
two-track state keeps the invariant. -/
theorem mutex_invariant_preserved_witness :
    MutexInv (step Op.play twoTrackState).1 :=
  mutex_invariant_preserved Op.play twoTrackState (by decide)

/-! ## C7: MIDI playback with no soundfont selected -/

/-- C7: starting playback of a `.mid`/`.midi` file with no soundfont
selected, from a state with no live backend, only sets the status message to
"No SoundFont selected": no process is spawned (the event trace is empty)
and every other field of the engine state is unchanged. -/
theorem no_soundfont_selected (s : AppState) (fp : Str)
    (hidle : s.fluidsynthProcess = false ∧ s.xmpProcess = false ∧ s.mplayerProcess = false)
    (hsel : get_selected_file s = some fp)
    (hext : toLowerL (splitextL fp).2 = str ".mid" ∨ toLowerL (splitextL fp).2 = str ".midi")
    (hsf : s.selectedSf2 = none) :
    (on_play s).1 = { s with radio := false, statusLabel := str "No SoundFont selected" } ∧
    (on_play s).2 = [] := by
  have h1 : stop_fluidsynth s = (s, []) := by
    unfold stop_fluidsynth
    rw [if_neg]
    simp [hidle.1]
  have h2 : stop_xmp s = (s, []) := by
    unfold stop_xmp
    rw [if_neg]
    simp [hidle.2.1]
  have h3 : stop_stream s = ({ s with radio := false }, []) := by
    unfold stop_stream
    dsimp only
    rw [if_neg]
    simp [hidle.2.2]
  have hsel' : get_selected_file { s with radio := false } = some fp := by
    unfold get_selected_file filteredView at hsel ⊢
    exact hsel
  have hsf' : ({ s with radio := false } : AppState).selectedSf2 = none := hsf
  unfold on_play
  rw [h1]
  dsimp only
  rw [h2]
  dsimp only
  rw [h3]
  dsimp only
  rw [hsel']
  dsimp only
  rw [if_pos hext, hsf']
  dsimp only
  exact ⟨rfl, rfl⟩

/-- The two-track state with no soundfont selected. -/
def noSf2State : AppState :=
  { twoTrackState with selectedSf2 := none }

/-- Witness for `no_soundfont_selected` at a concrete idle state with
`a.mid` selected. -/
theorem no_soundfont_selected_witness :
    (on_play noSf2State).1
        = { noSf2State with radio := false, statusLabel := str "No SoundFont selected" } ∧
    (on_play noSf2State).2 = [] :=
  no_soundfont_selected noSf2State (str "/music/a.mid") (by decide) (by decide)
    (by decide) (by decide)

/-! ## C6 / C10: favourite toggling -/

lemma find_row_spec : ∀ (store : List Row) (fp : Str) (i : Nat),
    find_row_iter_by_file store fp = some i →
    ∃ row, store.get? i = some row ∧ row.filePath = fp := by
  intro store
  induction store with
  | nil => intro fp i h; simp [find_row_iter_by_file] at h
  | cons row rest ih =>
    intro fp i h
    unfold find_row_iter_by_file at h
    by_cases hp : row.filePath = fp
    · rw [if_pos hp] at h
      obtain rfl : (0 : Nat) = i := by simpa using h
      exact ⟨row, by simp, hp⟩
    · rw [if_neg hp] at h
      rcases hj : find_row_iter_by_file rest fp with _ | j
      · rw [hj] at h; simp at h
      · rw [hj] at h
        simp only [Option.map_some'] at h
        obtain rfl : j + 1 = i := by simpa using h
        obtain ⟨r, hr, hrp⟩ := ih fp j hj
        exact ⟨r, by simpa using hr, hrp⟩

lemma find_row_of_mem : ∀ (store : List Row) (fp : Str),
    (∃ row ∈ store, row.filePath = fp) →
    ∃ i, find_row_iter_by_file store fp = some i := by
  intro store
  induction store with
  | nil => intro fp h; simp at h
  | cons row rest ih =>
    intro fp h
    unfold find_row_iter_by_file
    by_cases hp : row.filePath = fp
    · exact ⟨0, by rw [if_pos hp]⟩
    · obtain ⟨r, hr, hrp⟩ := h
      rcases List.mem_cons.mp hr with rfl | hmem
      · exact absurd hrp hp
      · obtain ⟨j, hj⟩ := ih fp ⟨r, hmem, hrp⟩
        exact ⟨j + 1, by rw [if_neg hp, hj]; rfl⟩

lemma find_row_set : ∀ (store : List Row) (fp : Str) (i : Nat) (x : Row),
    find_row_iter_by_file store fp = some i → x.filePath = fp →
    find_row_iter_by_file (store.set i x) fp = some i := by
  intro store
  induction store with
  | nil => intro fp i x h _; simp [find_row_iter_by_file] at h
  | cons row rest ih =>
    intro fp i x h hx
    unfold find_row_iter_by_file at h
    by_cases hp : row.filePath = fp
    · rw [if_pos hp] at h
      obtain rfl : (0 : Nat) = i := by simpa using h
      simp [find_row_iter_by_file, hx]
    · rw [if_neg hp] at h
      rcases hj : find_row_iter_by_file rest fp with _ | j
      · rw [hj] at h; simp at h
      · rw [hj] at h
        simp only [Option.map_some'] at h
        obtain rfl : j + 1 = i := by simpa using h
        have := ih fp j x hj hx
        simp [List.set, find_row_iter_by_file, if_neg hp, this]

lemma get?_set_self {α : Type} : ∀ (l : List α) (i : Nat) (x y : α),
    l.get? i = some y → (l.set i x).get? i = some x := by
  intro l
  induction l with
  | nil => intro i x y h; simp at h
  | cons a t ih =>
    intro i x y h
    cases i with
    | zero => simp
    | succ j =>
      simp only [List.set, List.get?] at h ⊢
      exact ih j x y h

lemma selected_mem_store (s : AppState) (fp : Str)
    (h : get_selected_file s = some fp) :
    ∃ row ∈ s.allStore, row.filePath = fp := by
  unfold get_selected_file at h
  rcases hc : s.cursor with _ | i
  · rw [hc] at h; simp at h
  · rw [hc] at h
    simp only [Option.map_eq_some'] at h
    obtain ⟨row, hrow, hfp⟩ := h
    exact ⟨row, List.mem_of_mem_filter (List.get?_mem hrow), hfp⟩

lemma on_toggle_favourite_eq (s : AppState) (fp : Str) (i : Nat) (row : Row)
    (hsel : get_selected_file s = some fp)
    (hfind : find_row_iter_by_file s.allStore fp = some i)
    (hget : s.allStore.get? i = some row) :
    on_toggle_favourite s =
      if fp ∈ s.favourites then
        { s with favourites := s.favourites.erase fp,
                 allStore := s.allStore.set i
                   { row with displayName := lstripStar row.displayName },
                 statusLabel := row.displayName ++ str " removed from favourites.",
                 favouritesFile := save_favourites (s.favourites.erase fp) }
      else
        { s with favourites := s.favourites ++ [fp],
                 allStore := s.allStore.set i
                   { row with displayName := '*' :: row.displayName },
                 statusLabel := row.displayName ++ str " added to favourites.",
                 favouritesFile := save_favourites (s.favourites ++ [fp]) } := by
  unfold on_toggle_favourite
  rw [hsel]
  dsimp only
  rw [hfind]
  dsimp only
  rw [hget]
  dsimp only
  by_cases h : fp ∈ s.favourites
  · rw [if_pos h, if_pos h]
  · rw [if_neg h, if_neg h]

/-- C6: toggling the favourite status of the selected path adds it to the
favourites when absent and removes it when present; after each toggle the
favourites file holds exactly the saved set, and toggling twice returns the
favourites to the original set. -/
theorem toggle_favourite_roundtrip (s : AppState) (fp : Str)
    (hnd : s.favourites.Nodup)
    (hsel : get_selected_file s = some fp)
    (hsel2 : get_selected_file (on_toggle_favourite s) = some fp) :
    (fp ∉ s.favourites → (on_toggle_favourite s).favourites = s.favourites ++ [fp]) ∧
    (fp ∈ s.favourites → (on_toggle_favourite s).favourites = s.favourites.erase fp) ∧
    (on_toggle_favourite s).favouritesFile
      = save_favourites (on_toggle_favourite s).favourites ∧
    (on_toggle_favourite (on_toggle_favourite s)).favouritesFile
      = save_favourites (on_toggle_favourite (on_toggle_favourite s)).favourites ∧
    (on_toggle_favourite (on_toggle_favourite s)).favourites.toFinset
      = s.favourites.toFinset := by
  obtain ⟨i, hfind⟩ := find_row_of_mem s.allStore fp (selected_mem_store s fp hsel)
  obtain ⟨row, hget, hrowfp⟩ := find_row_spec s.allStore fp i hfind
  have heq1 := on_toggle_favourite_eq s fp i row hsel hfind hget
  by_cases hmem : fp ∈ s.favourites
  · rw [if_pos hmem] at heq1
    have hfind2 : find_row_iter_by_file (on_toggle_favourite s).allStore fp = some i := by
      rw [heq1]
      exact find_row_set s.allStore fp i _ hfind hrowfp
    have hget2 : (on_toggle_favourite s).allStore.get? i
        = some { row with displayName := lstripStar row.displayName } := by
      rw [heq1]
      exact get?_set_self s.allStore i _ row hget
    have heq2 := on_toggle_favourite_eq (on_toggle_favourite s) fp i
      { row with displayName := lstripStar row.displayName } hsel2 hfind2 hget2
    have hmem2 : fp ∉ (on_toggle_favourite s).favourites := by
      rw [heq1]
      intro hcon
      exact absurd (hnd.mem_erase_iff.mp hcon).1 (by simp)
    rw [if_neg hmem2] at heq2
    refine ⟨fun h => absurd hmem h, fun _ => by rw [heq1], by rw [heq1], by rw [heq2], ?_⟩
    rw [heq2]
    dsimp only
    rw [heq1]
    dsimp only
    ext x
    constructor
    · intro hx
      simp only [List.toFinset_append, Finset.mem_union, List.mem_toFinset] at hx
      rcases hx with hx | hx
      · exact List.mem_toFinset.mpr ((hnd.mem_erase_iff.mp hx).2)
      · have hxeq : x = fp := by simpa using hx
        subst hxeq
        exact List.mem_toFinset.mpr hmem
    · intro hx
      simp only [List.toFinset_append, Finset.mem_union, List.mem_toFinset]
      by_cases hxfp : x = fp
      · right; simp [hxfp]
      · left; exact hnd.mem_erase_iff.mpr ⟨hxfp, List.mem_toFinset.mp hx⟩
  · rw [if_neg hmem] at heq1
    have hfind2 : find_row_iter_by_file (on_toggle_favourite s).allStore fp = some i := by
      rw [heq1]
      exact find_row_set s.allStore fp i _ hfind hrowfp
    have hget2 : (on_toggle_favourite s).allStore.get? i
        = some { row with displayName := '*' :: row.displayName } := by
      rw [heq1]
      exact get?_set_self s.allStore i _ row hget
    have heq2 := on_toggle_favourite_eq (on_toggle_favourite s) fp i
      { row with displayName := '*' :: row.displayName } hsel2 hfind2 hget2
    have hmem2 : fp ∈ (on_toggle_favourite s).favourites := by
      rw [heq1]
      simp
    rw [if_pos hmem2] at heq2
    have herase : ((s.favourites ++ [fp]).erase fp) = s.favourites := by
      rw [List.erase_append_right _ hmem, List.erase_cons_head]
      simp
    refine ⟨fun _ => by rw [heq1], fun h => absurd h hmem, by rw [heq1], by rw [heq2], ?_⟩
    rw [heq2]
    dsimp only
    rw [heq1]
    dsimp only
    rw [herase]

/-- C10: favourite status is encoded by prepending `*` to the display name,
and unfavouriting strips ALL leading `*` (lstrip): for a row whose display
name already begins with `*`, a favourite-then-unfavourite round trip
restores the favourites set but not the displayed name — the original
leading stars are lost. -/
theorem unfavourite_loses_leading_stars (s : AppState) (fp : Str) (i : Nat) (row : Row)
    (hsel : get_selected_file s = some fp)
    (hfind : find_row_iter_by_file s.allStore fp = some i)
    (hget : s.allStore.get? i = some row)
    (hsel2 : get_selected_file (on_toggle_favourite s) = some fp)
    (hmem : fp ∉ s.favourites)
    (hstar : row.displayName.take 1 = ['*']) :
    (on_toggle_favourite (on_toggle_favourite s)).favourites = s.favourites ∧
    (on_toggle_favourite (on_toggle_favourite s)).allStore.get? i
      = some { row with displayName := lstripStar row.displayName } ∧
    lstripStar row.displayName ≠ row.displayName := by
  obtain ⟨rowq, hgetq, hrowfp⟩ := find_row_spec s.allStore fp i hfind
  have hrow : rowq = row := by
    rw [hget] at hgetq
    exact (Option.some_injective _ hgetq).symm
  subst hrow
  have heq1 := on_toggle_favourite_eq s fp i rowq hsel hfind hget
  rw [if_neg hmem] at heq1
  have hfind2 : find_row_iter_by_file (on_toggle_favourite s).allStore fp = some i := by
    rw [heq1]
    exact find_row_set s.allStore fp i _ hfind hrowfp
  have hget2 : (on_toggle_favourite s).allStore.get? i
      = some { rowq with displayName := '*' :: rowq.displayName } := by
    rw [heq1]
    exact get?_set_self s.allStore i _ rowq hget
  have heq2 := on_toggle_favourite_eq (on_toggle_favourite s) fp i
    { rowq with displayName := '*' :: rowq.displayName } hsel2 hfind2 hget2
  have hmem2 : fp ∈ (on_toggle_favourite s).favourites := by
    rw [heq1]; simp
  rw [if_pos hmem2] at heq2
  have herase : ((s.favourites ++ [fp]).erase fp) = s.favourites := by
    rw [List.erase_append_right _ hmem, List.erase_cons_head]
    simp
  have hdn : ∃ t, rowq.displayName = '*' :: t := by
    rcases hd : rowq.displayName with _ | ⟨c, t⟩
    · rw [hd] at hstar; simp at hstar
    · rw [hd] at hstar
      simp only [List.take_succ_cons, List.take_zero] at hstar
      obtain rfl : c = '*' := by simpa using hstar
      exact ⟨t, rfl⟩
  obtain ⟨t, ht⟩ := hdn
  have hlstrip : lstripStar ('*' :: rowq.displayName) = lstripStar rowq.displayName := by
    unfold lstripStar
    rw [List.dropWhile_cons_of_pos]
    simp
  refine ⟨?_, ?_, ?_⟩
  · rw [heq2]
    dsimp only
    rw [heq1]
    dsimp only
    rw [herase]
  · rw [heq2]
    dsimp only
    rw [heq1]
    dsimp only
    have := get?_set_self (s.allStore.set i { rowq with displayName := '*' :: rowq.displayName })
      i ({ rowq with displayName := lstripStar ('*' :: rowq.displayName) })
      ({ rowq with displayName := '*' :: rowq.displayName })
      (get?_set_self s.allStore i _ rowq hget)
    rw [hlstrip] at this
    exact this
  · intro hcon
    have hlen : (lstripStar rowq.displayName).length < rowq.displayName.length := by
      rw [ht]
      unfold lstripStar
      rw [List.dropWhile_cons_of_pos (by simp)]
      have := (List.dropWhile_sublist (l := t) (fun c => c = '*')).length_le
      simp only [List.length_cons]
      omega
    rw [hcon] at hlen
    omega


/-- Witness for `toggle_favourite_roundtrip` on the two-track state. -/
theorem toggle_favourite_roundtrip_witness :
    (on_toggle_favourite (on_toggle_favourite twoTrackState)).favourites.toFinset
      = twoTrackState.favourites.toFinset :=
  (toggle_favourite_roundtrip twoTrackState (str "/music/a.mid") (by decide) (by decide)
    (by decide)).2.2.2.2

/-- A one-row catalog whose basename itself begins with a `*`. -/
def starNameState : AppState :=
  { twoTrackState with
    allStore := [{ displayName := str "*track.mid", folderName := str "music",
                   filePath := str "/music/*track.mid" }] }

/-- Witness for `unfavourite_loses_leading_stars` on a basename that begins
with a literal star. -/
theorem unfavourite_loses_leading_stars_witness :
    lstripStar (str "*track.mid") ≠ str "*track.mid" :=
  (unfavourite_loses_leading_stars starNameState (str "/music/*track.mid") 0
    { displayName := str "*track.mid", folderName := str "music",
      filePath := str "/music/*track.mid" }
    (by decide) (by decide) (by decide) (by decide) (by decide) (by decide)).2.2

/-! ## C9: search predicate semantics and the `*` favourites filter -/

lemma isSubstringL_head (c : Char) (l : Str) : isSubstringL [c] (c :: l) = true := by
  unfold isSubstringL
  rw [List.any_eq_true]
  refine ⟨0, by simp, by simp⟩

/-- C9 counterexample: the `*` predicate is not a favourites-only sentinel —
a row built from an empty favourites store (so not a favourite) whose
basename contains a literal `*` is matched by the `*` predicate, so the view
under `*` does not contain exactly the favourite entries. -/
theorem star_filter_matches_non_favourite :
    file_filter_func (str "*")
        (append_file_to_store [] (str "/") (str "/music/a*b.mid")) = true ∧
    normalizeL (str "/") (str "/music/a*b.mid") ∉ ([] : List Str) := by
  decide

/-- C9 (amended): the search predicate is a plain case-insensitive substring
match against display name or folder name, with the empty text matching all;
`*` is not special-cased, but because favourite entries get a `*` prefixed
to their display name, every favourite entry in the catalog matches the `*`
predicate (while non-favourites containing `*` may match too). -/
theorem file_filter_semantics (search : Str) (row : Row) (favs : List Str) (cwd f : Str) :
    (toLowerL search = [] → file_filter_func search row = true) ∧
    (toLowerL search ≠ [] →
      (file_filter_func search row = true ↔
        isSubstringL (toLowerL search) (toLowerL row.displayName) = true ∨
        isSubstringL (toLowerL search) (toLowerL row.folderName) = true)) ∧
    (normalizeL cwd f ∈ favs →
      file_filter_func (str "*") (append_file_to_store favs cwd f) = true) := by
  refine ⟨?_, ?_, ?_⟩
  · intro h
    unfold file_filter_func
    rw [if_pos h]
  · intro h
    unfold file_filter_func
    rw [if_neg h]
    simp [Bool.or_eq_true]
  · intro h
    unfold append_file_to_store
    dsimp only
    rw [if_pos h]
    unfold file_filter_func
    have hstar : toLowerL (str "*") = ['*'] := by decide
    rw [hstar, if_neg (by simp)]
    have hlow : toLowerL ('*' :: basenameL f) = '*' :: toLowerL (basenameL f) := by
      unfold toLowerL
      rw [List.map_cons]
      have : Char.toLower '*' = '*' := by decide
      rw [this]
    dsimp only
    rw [hlow, isSubstringL_head]
    simp


/-- Witness for `file_filter_semantics`: a favourite entry matches `*`. -/
theorem file_filter_semantics_witness :
    file_filter_func (str "*")
      (append_file_to_store [str "/music/a.mid"] (str "/") (str "/music/a.mid")) = true :=
  (file_filter_semantics [] { displayName := [], folderName := [], filePath := [] }
    [str "/music/a.mid"] (str "/") (str "/music/a.mid")).2.2 (by decide)

/-! ## C5: favourites save/load round trip -/

lemma splitOnChar_cons (c x : Char) (xs : Str) :
    splitOnChar c (x :: xs) =
      match splitOnChar c xs with
      | [] => [[]]
      | l :: ls => if x = c then [] :: l :: ls else (x :: l) :: ls := rfl

lemma splitOnChar_ne_nil (c : Char) (s : Str) : splitOnChar c s ≠ [] := by
  induction s with
  | nil => simp [splitOnChar]
  | cons x xs ih =>
    rw [splitOnChar_cons]
    rcases h : splitOnChar c xs with _ | ⟨l, ls⟩
    · exact absurd h ih
    · dsimp only
      split <;> simp

lemma splitOnChar_append (c : Char) : ∀ (p rest : Str), c ∉ p →
    splitOnChar c (p ++ c :: rest) = p :: splitOnChar c rest := by
  intro p
  induction p with
  | nil =>
    intro rest _
    rw [List.nil_append, splitOnChar_cons]
    rcases h : splitOnChar c rest with _ | ⟨l, ls⟩
    · exact absurd h (splitOnChar_ne_nil c rest)
    · dsimp only
      rw [if_pos rfl]
  | cons x xs ih =>
    intro rest hc
    have hx : x ≠ c := fun hh => hc (by simp [hh])
    have hxs : c ∉ xs := fun hh => hc (by simp [hh])
    rw [List.cons_append, splitOnChar_cons, ih rest hxs]
    dsimp only
    rw [if_neg hx]

lemma splitOnChar_flatten (c : Char) : ∀ (l : List Str), (∀ p ∈ l, c ∉ p) →
    splitOnChar c ((l.map (fun p => p ++ [c])).flatten) = l ++ [[]] := by
  intro l
  induction l with
  | nil => intro _; simp [splitOnChar]
  | cons p t ih =>
    intro h
    have hp : c ∉ p := h p (by simp)
    have ht : ∀ q ∈ t, c ∉ q := fun q hq => h q (by simp [hq])
    simp only [List.map_cons, List.flatten_cons]
    have hassoc : (p ++ [c]) ++ (t.map (fun q => q ++ [c])).flatten
        = p ++ c :: (t.map (fun q => q ++ [c])).flatten := by
      simp
    rw [hassoc, splitOnChar_append c p _ hp, ih ht]
    rfl

/-- C5 (amended): a favourites set whose members are normalised absolute
paths that additionally contain no newline and survive Python `strip()`
unchanged round-trips exactly through `save_favourites` / `load_favourites`
(even as an ordered enumeration, hence as a set). -/
theorem favourites_save_load_roundtrip (cwd : Str) (favs : List Str)
    (h : ∀ p ∈ favs, isabsL p = true ∧ normpathL p = p ∧ stripWS p = p ∧ '\n' ∉ p) :
    load_favourites cwd (save_favourites favs) = favs := by
  unfold load_favourites save_favourites
  rw [splitOnChar_flatten '\n' favs (fun p hp => (h p hp).2.2.2)]
  have hm1 : favs.map stripWS = favs :=
    (List.map_congr_left (fun p hp => (h p hp).2.2.1)).trans (List.map_id favs)
  have hmap : (favs ++ [[]]).map stripWS = favs ++ [[]] := by
    rw [List.map_append, hm1]
    rfl
  rw [hmap]
  have hfilter : (favs ++ [[]]).filter (fun l => l ≠ []) = favs := by
    rw [List.filter_append]
    have h1 : favs.filter (fun l => l ≠ []) = favs := by
      rw [List.filter_eq_self]
      intro p hp
      have habs := (h p hp).1
      rcases p with _ | _
      · simp [isabsL] at habs
      · simp
    have h2 : ([[]] : List Str).filter (fun l => l ≠ []) = [] := by rfl
    rw [h1, h2, List.append_nil]
  rw [hfilter]
  refine (List.map_congr_left ?_).trans (List.map_id favs)
  intro p hp
  unfold normalizeL normcaseL abspathL
  rw [if_pos (h p hp).1, (h p hp).2.1]
  rfl


/-- C5 counterexample: `/a␣` (with a trailing space) is a normalised
absolute path — `normpath` preserves it — yet saving the favourites set
`{"/a "}` and loading it back yields `{"/a"}`: `load_favourites` strips the
line, so the round trip is not the identity for every set of normalised
absolute paths. -/
theorem favourites_roundtrip_fails_on_trailing_space :
    isabsL (str "/a ") = true ∧ normpathL (str "/a ") = str "/a " ∧
    load_favourites (str "/") (save_favourites [str "/a "]) = [str "/a"] ∧
    (load_favourites (str "/") (save_favourites [str "/a "])).toFinset
      ≠ ([str "/a "] : List Str).toFinset := by
  decide

/-- Witness for `favourites_save_load_roundtrip`: the set containing exactly
`/music/a.mid` round-trips unchanged. -/
theorem favourites_save_load_roundtrip_witness :
    load_favourites (str "/") (save_favourites [str "/music/a.mid"])
      = [str "/music/a.mid"] :=
  favourites_save_load_roundtrip (str "/") [str "/music/a.mid"] (by decide)

/-! ## C8: ICY metadata reader -/

lemma fetchLoop_succ (metaint fuel : Nat) (curTitle s : Str) :
    fetchLoop metaint (fuel + 1) curTitle s =
      if metaint = 0 then []
      else if s.take metaint = [] then []
      else
        match s.drop metaint with
        | [] => []
        | b :: rest =>
          if b.toNat * 16 > 0 then
            (publishTitles curTitle (parseStreamTitles (rest.take (b.toNat * 16)))).1 ++
              fetchLoop metaint fuel
                (publishTitles curTitle (parseStreamTitles (rest.take (b.toNat * 16)))).2
                (rest.drop (b.toNat * 16))
          else fetchLoop metaint fuel curTitle rest := rfl

lemma fetchLoop_nil (metaint fuel : Nat) (curTitle : Str) :
    fetchLoop metaint fuel curTitle [] = [] := by
  cases fuel with
  | zero => rfl
  | succ f =>
    rw [fetchLoop_succ]
    by_cases h : metaint = 0
    · rw [if_pos h]
    · rw [if_neg h]
      simp

lemma dropWhile_nul_replicate (k : Nat) :
    List.dropWhile (fun x => x = '\x00') (List.replicate k '\x00') = [] := by
  induction k with
  | zero => rfl
  | succ n ih => simp [List.replicate_succ, List.dropWhile_cons, ih]

lemma rstripNul_padded (a : Str) (k : Nat) :
    rstripNul ((a ++ [';']) ++ List.replicate k '\x00') = a ++ [';'] := by
  unfold rstripNul
  rw [List.reverse_append, List.reverse_replicate, List.reverse_append]
  simp only [List.reverse_singleton, List.singleton_append]
  rw [List.dropWhile_append]
  rw [dropWhile_nul_replicate]
  simp only [List.isEmpty_nil, if_true]
  rw [List.dropWhile_cons_of_neg (by decide)]
  simp

lemma dropWhile_quote_id (t : Str) (h : '\'' ∉ t) :
    List.dropWhile (fun x => x = '\'') t = t := by
  cases t with
  | nil => rfl
  | cons c t' =>
    have : c ≠ '\'' := fun hh => h (by simp [hh])
    rw [List.dropWhile_cons_of_neg (by simpa using this)]

lemma stripQuotes_wrap (t : Str) (ht : t ≠ []) (hq : '\'' ∉ t) :
    stripQuotes ('\'' :: (t ++ ['\''])) = t := by
  unfold stripQuotes
  rw [List.dropWhile_cons_of_pos (by decide)]
  have h1 : List.dropWhile (fun x => x = '\'') (t ++ ['\'']) = t ++ ['\''] := by
    cases t with
    | nil => exact absurd rfl ht
    | cons c t' =>
      have : c ≠ '\'' := fun hh => hq (by simp [hh])
      rw [List.cons_append, List.dropWhile_cons_of_neg (by simpa using this)]
  rw [h1, List.reverse_append]
  simp only [List.reverse_singleton, List.singleton_append]
  rw [List.dropWhile_cons_of_pos (by decide)]
  rw [dropWhile_quote_id t.reverse (by simpa using hq)]
  simp

lemma dropWhile_to_eq (k : Str) (hk : '=' ∉ k) (rest : Str) :
    List.dropWhile (fun x => x ≠ '=') (k ++ '=' :: rest) = '=' :: rest := by
  induction k with
  | nil => simp [List.dropWhile_cons]
  | cons c t ih =>
    have hc : c ≠ '=' := fun hh => hk (by simp [hh])
    have ht : '=' ∉ t := fun hh => hk (by simp [hh])
    rw [List.cons_append, List.dropWhile_cons_of_pos (by simpa using hc)]
    exact ih ht

lemma parse_single_frame (title : Str) (k : Nat)
    (ht0 : title ≠ []) (hsemi : ';' ∉ title) (hq : '\'' ∉ title) :
    parseStreamTitles ((streamTitleKey ++ title ++ ['\'', ';']) ++ List.replicate k '\x00')
      = [title] := by
  have hA : streamTitleKey ++ title ++ ['\'', ';']
      = (streamTitleKey ++ title ++ ['\'']) ++ [';'] := by simp
  unfold parseStreamTitles
  rw [hA, rstripNul_padded]
  have hsA : ';' ∉ streamTitleKey ++ title ++ ['\''] := by
    intro hmem
    rcases List.mem_append.mp hmem with hmem1 | hmem2
    · rcases List.mem_append.mp hmem1 with hmem3 | hmem4
      · revert hmem3; decide
      · exact hsemi hmem4
    · simp at hmem2
  have hsplit : splitOnChar ';' ((streamTitleKey ++ title ++ ['\'']) ++ [';'])
      = [streamTitleKey ++ title ++ ['\''], []] := by
    have : (streamTitleKey ++ title ++ ['\'']) ++ [';']
        = (streamTitleKey ++ title ++ ['\'']) ++ ';' :: [] := rfl
    rw [this, splitOnChar_append ';' _ [] hsA]
    rfl
  rw [hsplit]
  simp only [List.filterMap_cons, List.filterMap_nil]
  have hpre : streamTitleKey.isPrefixOf (streamTitleKey ++ title ++ ['\'']) = true := by
    rw [List.append_assoc, List.isPrefixOf_iff_prefix]
    exact List.prefix_append streamTitleKey (title ++ ['\''])
  rw [hpre]
  have hpre2 : streamTitleKey.isPrefixOf ([] : Str) = false := by decide
  rw [hpre2]
  have hkey : streamTitleKey
      = ['S', 't', 'r', 'e', 'a', 'm', 'T', 'i', 't', 'l', 'e'] ++ '=' :: ['\''] := by decide
  have hafter : afterFirstEq (streamTitleKey ++ title ++ ['\''])
      = '\'' :: (title ++ ['\'']) := by
    unfold afterFirstEq
    have hshape : streamTitleKey ++ title ++ ['\'']
        = ['S', 't', 'r', 'e', 'a', 'm', 'T', 'i', 't', 'l', 'e']
          ++ '=' :: ('\'' :: (title ++ ['\''])) := by
      rw [hkey]
      simp
    rw [hshape, dropWhile_to_eq ['S', 't', 'r', 'e', 'a', 'm', 'T', 'i', 't', 'l', 'e']
      (by decide) ('\'' :: (title ++ ['\'']))]
  rw [hafter, stripQuotes_wrap title ht0 hq]
  rfl

/-- C8: the metadata reader discards `metaint` payload bytes, reads one
length byte `c`, reads `16 * c` metadata bytes, strips the trailing NUL
padding, splits on `;`, extracts the `StreamTitle` value stripping the
surrounding quotes, and publishes exactly one title-updated event for the
frame: a stream consisting of one payload block and one well-formed
`StreamTitle` frame produces exactly the one parsed title. -/
theorem icy_single_frame (metaint : Nat) (payload title curTitle : Str) (c : Char)
    (hm : 0 < metaint) (hp : payload.length = metaint)
    (hn : (streamTitleKey ++ title ++ ['\'', ';']).length ≤ c.toNat * 16)
    (ht0 : title ≠ []) (hsemi : ';' ∉ title) (hq : '\'' ∉ title) :
    fetch_current_track metaint curTitle
      (payload ++ c :: ((streamTitleKey ++ title ++ ['\'', ';'])
        ++ List.replicate (c.toNat * 16 - (streamTitleKey ++ title ++ ['\'', ';']).length) '\x00'))
      = [title] := by
  set frame := streamTitleKey ++ title ++ ['\'', ';'] with hframe
  set pad := List.replicate (c.toNat * 16 - frame.length) '\x00' with hpad
  set rest0 := frame ++ pad with hrest0
  set s := payload ++ c :: rest0 with hs
  have hrest0len : rest0.length = c.toNat * 16 := by
    rw [hrest0, List.length_append, hpad, List.length_replicate]
    omega
  have hslen : s.length = metaint + 1 + c.toNat * 16 := by
    rw [hs, List.length_append, List.length_cons, hrest0len, hp]
    omega
  have hml : 0 < c.toNat * 16 := by
    have : 0 < frame.length := by
      rw [hframe]
      simp [streamTitleKey]
    omega
  have hpayload_ne : payload ≠ [] := by
    intro hnil
    rw [hnil] at hp
    simp at hp
    omega
  unfold fetch_current_track
  rw [show s.length = (metaint + c.toNat * 16) + 1 by omega, fetchLoop_succ]
  rw [if_neg (by omega)]
  have htake : s.take metaint = payload := by
    rw [hs]
    exact List.take_left' hp
  have hdrop : s.drop metaint = c :: rest0 := by
    rw [hs]
    exact List.drop_left' hp
  rw [htake, if_neg hpayload_ne, hdrop]
  dsimp only
  rw [if_pos hml]
  have htake2 : rest0.take (c.toNat * 16) = rest0 := by
    rw [← hrest0len]
    exact List.take_length rest0
  have hdrop2 : rest0.drop (c.toNat * 16) = [] := by
    rw [← hrest0len]
    exact List.drop_length rest0
  rw [htake2, hdrop2, fetchLoop_nil, List.append_nil]
  rw [hrest0, hframe, parse_single_frame title _ ht0 hsemi hq]
  unfold publishTitles
  rw [if_pos ht0]
  rfl


/-- Witness for `icy_single_frame`: Scenario E — `metaint = 10` and the one
frame `StreamTitle='Song X';` (length byte 2, NUL-padded to 32 bytes)
produces exactly one title update with value `Song X`. -/
theorem icy_single_frame_witness :
    fetch_current_track 10 (str "Radio")
      (str "0123456789" ++ '\x02' :: ((streamTitleKey ++ str "Song X" ++ ['\'', ';'])
        ++ List.replicate
          ('\x02'.toNat * 16 - (streamTitleKey ++ str "Song X" ++ ['\'', ';']).length) '\x00'))
      = [str "Song X"] :=
  icy_single_frame 10 (str "0123456789") (str "Song X") (str "Radio") '\x02'
    (by decide) (by decide) (by decide) (by decide) (by decide) (by decide)
